import Mathlib

/-!
Verification development for the crab CFG construction subsystem
(src/include/crab/cfg/cfg.hpp).  The C++ classes are shallowly embedded as
Lean structures and executable functions; statements become an inductive
type, the basic-block map of a CFG becomes an association list with the
no-overwrite insertion semantics of boost::unordered_map, and functions
that can raise CRAB_ERROR return Except/Option values.
-/

set_option maxRecDepth 4000

/-- Flat type lattice of crab variables (crab/common/types.hpp, external to
this header; the order of the enumerators mirrors the C++ enum, with array
types at the top used by the checks of the form type < ARR_BOOL_TYPE). -/
inductive VType where
  | BOOL_TYPE
  | INT_TYPE
  | REAL_TYPE
  | PTR_TYPE
  | ARR_BOOL_TYPE
  | ARR_INT_TYPE
  | ARR_REAL_TYPE
  | ARR_PTR_TYPE
deriving DecidableEq, Repr

/-- Numeric code of a VType enumerator, used for the enum comparisons of the
C++ code (type < ARR_BOOL_TYPE) and by boost::hash over the enum. -/
def VType.code : VType → Nat
  | .BOOL_TYPE => 0
  | .INT_TYPE => 1
  | .REAL_TYPE => 2
  | .PTR_TYPE => 3
  | .ARR_BOOL_TYPE => 4
  | .ARR_INT_TYPE => 5
  | .ARR_REAL_TYPE => 6
  | .ARR_PTR_TYPE => 7

/-- Typed variable: interned name, type of the flat lattice and bit width
(ikos::variable). -/
structure Var where
  name : String
  ty : VType
  bitwidth : Nat
deriving DecidableEq, Repr

/-- Linear expression over typed variables (ikos::linear_expression,
external to this header): an affine combination, kept as the list of
coefficient-variable terms plus a constant. -/
structure LinExp where
  terms : List (Int × Var)
  cst : Int
deriving DecidableEq, Repr

/-- The variables referenced by a linear expression. -/
def LinExp.variables (e : LinExp) : List Var :=
  e.terms.map (fun t => t.2)

/-- Whether the expression is a constant (no variables). -/
def LinExp.is_constant (e : LinExp) : Bool :=
  e.terms.isEmpty

/-- The single variable of the expression, when it is of the form v + 0. -/
def LinExp.get_variable (e : LinExp) : Option Var :=
  match e.terms, e.cst with
  | [(c, v)], 0 => if c = 1 then some v else none
  | _, _ => none

/-- Linear constraint over typed variables (ikos::linear_constraint,
external to this header); only the referenced variables matter here. -/
structure LinCst where
  terms : List (Int × Var)
  cst : Int
deriving DecidableEq, Repr

/-- The variables referenced by a linear constraint. -/
def LinCst.variables (c : LinCst) : List Var :=
  c.terms.map (fun t => t.2)

/-- Pointer constraint (crab pointer_constraint, external to this header),
modelled through the interface the CFG code uses: tautology/contradiction
flags, arity, and the one or two variables involved. -/
structure PtrCst where
  isTautology : Bool
  isContradiction : Bool
  isUnary : Bool
  lhs : Var
  rhs : Var
deriving DecidableEq, Repr

/-- Binary arithmetic operations (binary_operation_t). -/
inductive BinOp where
  | BINOP_ADD | BINOP_SUB | BINOP_MUL | BINOP_SDIV | BINOP_UDIV
  | BINOP_SREM | BINOP_UREM | BINOP_AND | BINOP_OR | BINOP_XOR
deriving DecidableEq, Repr

/-- Boolean binary operations (bool_binary_operation_t). -/
inductive BoolBinOp where
  | BINOP_BAND | BINOP_BOR | BINOP_BXOR
deriving DecidableEq, Repr

/-- Integer cast operations (cast_operation_t). -/
inductive CastOp where
  | CAST_TRUNC | CAST_SEXT | CAST_ZEXT
deriving DecidableEq, Repr

/-- Tracking precision of a CFG (tracked_precision, NUM <= PTR <= ARR). -/
inductive TrackedPrecision where
  | NUM | PTR | ARR
deriving DecidableEq, Repr

/-- Numeric value of the tracked_precision enumerators (NUM = 0, PTR = 1,
ARR = 2), used for the comparisons m_track_prec >= PTR. -/
def TrackedPrecision.code : TrackedPrecision → Nat
  | .NUM => 0
  | .PTR => 1
  | .ARR => 2

/-- The closed statement variant set of the CFG language; one constructor
per C++ statement class of cfg.hpp, carrying exactly the operand payload of
that class (debug-location tags are elided: no property here depends on
them). -/
inductive Stmt where
  | binary_op (lhs : Var) (op : BinOp) (op1 op2 : LinExp)
  | assignment (lhs : Var) (rhs : LinExp)
  | assume_stmt (cst : LinCst)
  | unreachable_stmt
  | havoc_stmt (lhs : Var)
  | select_stmt (lhs : Var) (cond : LinCst) (e1 e2 : LinExp)
  | assert_stmt (cst : LinCst)
  | int_cast_stmt (op : CastOp) (src dst : Var)
  | array_assume_stmt (arr : Var) (elemSize : Nat) (lb ub val : LinExp)
  | array_store_stmt (arr : Var) (index value : LinExp) (elemSize : Nat)
      (isSingleton : Bool)
  | array_load_stmt (lhs arr : Var) (index : LinExp) (elemSize : Nat)
  | array_assign_stmt (lhs rhs : Var)
  | ptr_load_stmt (lhs rhs : Var)
  | ptr_store_stmt (lhs rhs : Var)
  | ptr_assign_stmt (lhs rhs : Var) (offset : LinExp)
  | ptr_object_stmt (lhs : Var) (address : Int)
  | ptr_function_stmt (lhs : Var) (func : String)
  | ptr_null_stmt (lhs : Var)
  | ptr_assume_stmt (cst : PtrCst)
  | ptr_assert_stmt (cst : PtrCst)
  | callsite_stmt (funcName : String) (lhs args : List Var)
  | return_stmt (ret : List Var)
  | bool_binary_op (lhs : Var) (op : BoolBinOp) (op1 op2 : Var)
  | bool_assign_cst (lhs : Var) (rhs : LinCst)
  | bool_assign_var (lhs rhs : Var) (isRhsNegated : Bool)
  | bool_assume_stmt (cond : Var) (isNegated : Bool)
  | bool_select_stmt (lhs cond b1 b2 : Var)
  | bool_assert_stmt (cond : Var)
deriving DecidableEq, Repr

/-- Add to a live-set partition without duplicates (Live::add). -/
def liveAdd (s : List Var) (v : Var) : List Var :=
  if v ∈ s then s else s ++ [v]

/-- Add a whole list of variables in order (the for loops of the statement
constructors). -/
def liveAddList (s : List Var) (vs : List Var) : List Var :=
  vs.foldl liveAdd s

/-- Use/def live set of a statement (class Live). -/
structure Live where
  uses : List Var
  defs : List Var
deriving DecidableEq, Repr

/-- The empty live set. -/
def Live.empty : Live := ⟨[], []⟩

/-- Live::add_use. -/
def Live.add_use (l : Live) (v : Var) : Live :=
  { l with uses := liveAdd l.uses v }

/-- Live::add_def. -/
def Live.add_def (l : Live) (v : Var) : Live :=
  { l with defs := liveAdd l.defs v }

/-- add_use over a list of variables. -/
def Live.add_uses (l : Live) (vs : List Var) : Live :=
  { l with uses := liveAddList l.uses vs }

/-- The variables a ptr_assume/ptr_assert registers as uses: none when the
constraint is a tautology or contradiction, else its one or two variables
(the constructor bodies of ptr_assume_stmt and ptr_assert_stmt). -/
def PtrCst.liveVars (c : PtrCst) : List Var :=
  if c.isTautology || c.isContradiction then []
  else if c.isUnary then [c.lhs] else [c.lhs, c.rhs]

/-- The live set each statement constructor derives, with the add_use and
add_def calls applied in the order of the C++ constructor bodies.  Note
ptr_load_stmt registers BOTH of its variables with add_use (cfg.hpp lines
1030-1034) and ptr_assign_stmt never registers the variables of its offset
expression (lines 1125-1129). -/
def stmtLive : Stmt → Live
  | .binary_op lhs _ op1 op2 =>
      ((Live.empty.add_def lhs).add_uses op1.variables).add_uses op2.variables
  | .assignment lhs rhs =>
      (Live.empty.add_def lhs).add_uses rhs.variables
  | .assume_stmt cst => Live.empty.add_uses cst.variables
  | .unreachable_stmt => Live.empty
  | .havoc_stmt lhs => Live.empty.add_def lhs
  | .select_stmt lhs cond e1 e2 =>
      (((Live.empty.add_def lhs).add_uses cond.variables).add_uses
        e1.variables).add_uses e2.variables
  | .assert_stmt cst => Live.empty.add_uses cst.variables
  | .int_cast_stmt _ src dst => (Live.empty.add_use src).add_def dst
  | .array_assume_stmt arr _ lb ub val =>
      (((Live.empty.add_use arr).add_uses lb.variables).add_uses
        ub.variables).add_uses val.variables
  | .array_store_stmt arr index value _ _ =>
      ((Live.empty.add_use arr).add_uses index.variables).add_uses
        value.variables
  | .array_load_stmt lhs arr index _ =>
      ((Live.empty.add_def lhs).add_use arr).add_uses index.variables
  | .array_assign_stmt lhs rhs => (Live.empty.add_def lhs).add_use rhs
  | .ptr_load_stmt lhs rhs => (Live.empty.add_use lhs).add_use rhs
  | .ptr_store_stmt lhs rhs => (Live.empty.add_use lhs).add_use rhs
  | .ptr_assign_stmt lhs rhs _ => (Live.empty.add_def lhs).add_use rhs
  | .ptr_object_stmt lhs _ => Live.empty.add_def lhs
  | .ptr_function_stmt lhs _ => Live.empty.add_def lhs
  | .ptr_null_stmt lhs => Live.empty.add_def lhs
  | .ptr_assume_stmt cst => Live.empty.add_uses cst.liveVars
  | .ptr_assert_stmt cst => Live.empty.add_uses cst.liveVars
  | .callsite_stmt _ lhs args =>
      lhs.foldl Live.add_def (Live.empty.add_uses args)
  | .return_stmt ret => Live.empty.add_uses ret
  | .bool_binary_op lhs _ op1 op2 =>
      ((Live.empty.add_def lhs).add_use op1).add_use op2
  | .bool_assign_cst lhs rhs =>
      (Live.empty.add_def lhs).add_uses rhs.variables
  | .bool_assign_var lhs rhs _ => (Live.empty.add_def lhs).add_use rhs
  | .bool_assume_stmt cond _ => Live.empty.add_use cond
  | .bool_select_stmt lhs cond b1 b2 =>
      (((Live.empty.add_def lhs).add_use cond).add_use b1).add_use b2
  | .bool_assert_stmt cond => Live.empty.add_use cond

/-- statement::is_assume. -/
def Stmt.is_assume : Stmt → Bool
  | .assume_stmt _ => true
  | _ => false

/-- statement::is_bool_assume. -/
def Stmt.is_bool_assume : Stmt → Bool
  | .bool_assume_stmt _ _ => true
  | _ => false

/-- statement::is_arr_read (ARR_LOAD). -/
def Stmt.is_arr_read : Stmt → Bool
  | .array_load_stmt _ _ _ _ => true
  | _ => false

/-- statement::is_ptr_read (PTR_LOAD). -/
def Stmt.is_ptr_read : Stmt → Bool
  | .ptr_load_stmt _ _ => true
  | _ => false

/-- Whether a statement is a pointer offset assignment (PTR_ASSIGN). -/
def Stmt.is_ptr_assign : Stmt → Bool
  | .ptr_assign_stmt _ _ _ => true
  | _ => false

/-- Basic block (class basic_block): label, ordered statement list, the two
adjacency label vectors, the one-shot front-insertion flag, the tracking
precision inherited from the CFG, and the aggregated live-variable set
(ikos::discrete_domain, modelled as a duplicate-free insertion-ordered
list). -/
structure Block where
  label : Nat
  stmts : List Stmt
  prev : List Nat
  next : List Nat
  insertPointAtFront : Bool
  trackPrec : TrackedPrecision
  live : List Var
deriving DecidableEq, Repr

/-- basic_block::create: fresh empty block. -/
def Block.create (label : Nat) (prec : TrackedPrecision) : Block :=
  ⟨label, [], [], [], false, prec, []⟩

/-- basic_block::insert: place the statement at the front once if the flag
is set, else at the back, and join the statement live set into the block
live set (uses first, then defs, as in the C++ loops). -/
def Block.insertStmt (b : Block) (s : Stmt) : Block :=
  let b :=
    if b.insertPointAtFront then
      { b with stmts := s :: b.stmts, insertPointAtFront := false }
    else
      { b with stmts := b.stmts ++ [s] }
  let ls := stmtLive s
  { b with live := liveAddList (liveAddList b.live ls.uses) ls.defs }

/-- basic_block::set_insert_point_front. -/
def Block.set_insert_point_front (b : Block) : Block :=
  { b with insertPointAtFront := true }

/-- basic_block::clone: fresh block with the same label and precision,
statement clones in order, both adjacency vectors and the live set copied
(the front-insertion flag of the new block is false). -/
def Block.clone (b : Block) : Block :=
  { Block.create b.label b.trackPrec with
      stmts := b.stmts, prev := b.prev, next := b.next, live := b.live }

/-- basic_block::merge_back: append the statements of the other block and
join the live sets. -/
def Block.merge_back (b other : Block) : Block :=
  { b with stmts := b.stmts ++ other.stmts,
           live := liveAddList b.live other.live }

/-- Checked constructor of array_assume_stmt (its CRAB_ERROR
preconditions). -/
def mkArrayAssume (a : Var) (elemSize : Nat) (lb ub val : LinExp) :
    Except String Stmt :=
  if !(lb.is_constant || (lb.get_variable).isSome) then
    .error "array_assume third parameter can only be number or variable"
  else if !(ub.is_constant || (ub.get_variable).isSome) then
    .error "array_assume forth parameter can only be number or variable"
  else if !(val.is_constant || (val.get_variable).isSome) then
    .error "array_assume fifth parameter can only be number or variable"
  else .ok (.array_assume_stmt a elemSize lb ub val)

/-- Checked constructor of array_store_stmt. -/
def mkArrayStore (arr : Var) (index value : LinExp) (elemSize : Nat)
    (isSing : Bool) : Except String Stmt :=
  if arr.ty.code < VType.ARR_BOOL_TYPE.code then
    .error "array_store must have array type"
  else if !(value.is_constant || (value.get_variable).isSome) then
    .error "array_store forth parameter only number or variable"
  else .ok (.array_store_stmt arr index value elemSize isSing)

/-- Checked constructor of array_load_stmt. -/
def mkArrayLoad (lhs arr : Var) (index : LinExp) (elemSize : Nat) :
    Except String Stmt :=
  if arr.ty.code < VType.ARR_BOOL_TYPE.code then
    .error "array_load must have array type"
  else .ok (.array_load_stmt lhs arr index elemSize)

/-- Checked constructor of array_assign_stmt. -/
def mkArrayAssign (lhs rhs : Var) : Except String Stmt :=
  if lhs.ty.code < VType.ARR_BOOL_TYPE.code || lhs.ty ≠ rhs.ty then
    .error "array_assign must have array type"
  else .ok (.array_assign_stmt lhs rhs)

/-- basic_block::array_assume builder: effective only at ARR precision. -/
def Block.array_assume (b : Block) (a : Var) (elemSize : Nat)
    (lb ub val : LinExp) : Except String Block :=
  if b.trackPrec = .ARR then do
    let s ← mkArrayAssume a elemSize lb ub val
    pure (b.insertStmt s)
  else pure b

/-- basic_block::array_store builder. -/
def Block.array_store (b : Block) (arr : Var) (index value : LinExp)
    (elemSize : Nat) (isSing : Bool) : Except String Block :=
  if b.trackPrec = .ARR then do
    let s ← mkArrayStore arr index value elemSize isSing
    pure (b.insertStmt s)
  else pure b

/-- basic_block::array_load builder. -/
def Block.array_load (b : Block) (lhs arr : Var) (index : LinExp)
    (elemSize : Nat) : Except String Block :=
  if b.trackPrec = .ARR then do
    let s ← mkArrayLoad lhs arr index elemSize
    pure (b.insertStmt s)
  else pure b

/-- basic_block::array_assign builder. -/
def Block.array_assign (b : Block) (lhs rhs : Var) : Except String Block :=
  if b.trackPrec = .ARR then do
    let s ← mkArrayAssign lhs rhs
    pure (b.insertStmt s)
  else pure b

/-- basic_block::ptr_store builder: effective only at precision >= PTR. -/
def Block.ptr_store (b : Block) (lhs rhs : Var) : Except String Block :=
  if TrackedPrecision.PTR.code ≤ b.trackPrec.code then
    pure (b.insertStmt (.ptr_store_stmt lhs rhs))
  else pure b

/-- basic_block::ptr_load builder. -/
def Block.ptr_load (b : Block) (lhs rhs : Var) : Except String Block :=
  if TrackedPrecision.PTR.code ≤ b.trackPrec.code then
    pure (b.insertStmt (.ptr_load_stmt lhs rhs))
  else pure b

/-- basic_block::ptr_assign builder. -/
def Block.ptr_assign (b : Block) (lhs rhs : Var) (offset : LinExp) :
    Except String Block :=
  if TrackedPrecision.PTR.code ≤ b.trackPrec.code then
    pure (b.insertStmt (.ptr_assign_stmt lhs rhs offset))
  else pure b

/-- basic_block::ptr_new_object builder. -/
def Block.ptr_new_object (b : Block) (lhs : Var) (address : Int) :
    Except String Block :=
  if TrackedPrecision.PTR.code ≤ b.trackPrec.code then
    pure (b.insertStmt (.ptr_object_stmt lhs address))
  else pure b

/-- basic_block::ptr_new_func builder. -/
def Block.ptr_new_func (b : Block) (lhs : Var) (func : String) :
    Except String Block :=
  if TrackedPrecision.PTR.code ≤ b.trackPrec.code then
    pure (b.insertStmt (.ptr_function_stmt lhs func))
  else pure b

/-- basic_block::ptr_null builder. -/
def Block.ptr_null (b : Block) (lhs : Var) : Except String Block :=
  if TrackedPrecision.PTR.code ≤ b.trackPrec.code then
    pure (b.insertStmt (.ptr_null_stmt lhs))
  else pure b

/-- basic_block::ptr_assume builder. -/
def Block.ptr_assume (b : Block) (cst : PtrCst) : Except String Block :=
  if TrackedPrecision.PTR.code ≤ b.trackPrec.code then
    pure (b.insertStmt (.ptr_assume_stmt cst))
  else pure b

/-- basic_block::ptr_assertion builder. -/
def Block.ptr_assertion (b : Block) (cst : PtrCst) : Except String Block :=
  if TrackedPrecision.PTR.code ≤ b.trackPrec.code then
    pure (b.insertStmt (.ptr_assert_stmt cst))
  else pure b

/-- basic_block::havoc builder (no precision gate). -/
def Block.havoc (b : Block) (lhs : Var) : Block :=
  b.insertStmt (.havoc_stmt lhs)

/-- basic_block::assume builder (no precision gate). -/
def Block.assume_builder (b : Block) (cst : LinCst) : Block :=
  b.insertStmt (.assume_stmt cst)

/-- basic_block::assign builder (no precision gate). -/
def Block.assign (b : Block) (lhs : Var) (rhs : LinExp) : Block :=
  b.insertStmt (.assignment lhs rhs)

/-- Lookup in the label-keyed block map (boost::unordered_map::find),
modelled as first match in an association list. -/
def mapLookup (m : List (Nat × Block)) (k : Nat) : Option Block :=
  match m with
  | [] => none
  | (k2, v) :: t => if k2 = k then some v else mapLookup t k

/-- boost::unordered_map::insert: inserts only if the key is not already
present (it never overwrites). -/
def mapInsert (m : List (Nat × Block)) (k : Nat) (v : Block) :
    List (Nat × Block) :=
  if (mapLookup m k).isSome then m else m ++ [(k, v)]

/-- Apply a function to the block stored under a key (mutation through a
basic_block reference obtained from the map); other keys are untouched. -/
def mapUpdate (m : List (Nat × Block)) (k : Nat) (f : Block → Block) :
    List (Nat × Block) :=
  m.map (fun p => if p.1 = k then (p.1, f p.2) else p)

/-- boost::unordered_map::erase. -/
def mapErase (m : List (Nat × Block)) (k : Nat) : List (Nat × Block) :=
  m.filter (fun p => p.1 ≠ k)

/-- Function declaration (class function_decl): name plus ordered input and
output variables. -/
structure FunctionDecl where
  funcName : String
  inputs : List Var
  outputs : List Var
deriving DecidableEq, Repr

/-- The CFG (class Cfg): entry label, optional exit (m_has_exit/m_exit),
the label-keyed block map, the fixed tracking precision and the optional
function declaration. -/
structure Cfg where
  entry : Nat
  exit? : Option Nat
  blocks : List (Nat × Block)
  trackPrec : TrackedPrecision
  funcDecl : Option FunctionDecl
deriving DecidableEq, Repr

/-- Cfg::has_exit. -/
def Cfg.has_exit (c : Cfg) : Bool := c.exit?.isSome

/-- The Cfg(entry, track_prec) constructor: records the entry label and
inserts a fresh empty entry block. -/
def Cfg.mk_entry (entry : Nat) (prec : TrackedPrecision) : Cfg :=
  ⟨entry, none, mapInsert [] entry (Block.create entry prec), prec, none⟩

/-- Cfg::insert: idempotent block insertion at the fixed precision. -/
def Cfg.insert (c : Cfg) (bbId : Nat) : Cfg :=
  match mapLookup c.blocks bbId with
  | some _ => c
  | none => { c with blocks := mapInsert c.blocks bbId (Block.create bbId c.trackPrec) }

/-- basic_block::insert_adjacent: append without duplicates. -/
def insertAdjacent (c : List Nat) (e : Nat) : List Nat :=
  if e ∈ c then c else c ++ [e]

/-- basic_block::remove_adjacent: erase every occurrence. -/
def removeAdjacent (c : List Nat) (e : Nat) : List Nat :=
  c.filter (fun x => x ≠ e)

/-- basic_block::operator>> on the blocks of a CFG: a is recorded as a
predecessor of b and b as a successor of a. -/
def Cfg.addEdge (c : Cfg) (a b : Nat) : Cfg :=
  let m := mapUpdate c.blocks a (fun blk => { blk with next := insertAdjacent blk.next b })
  let m := mapUpdate m b (fun blk => { blk with prev := insertAdjacent blk.prev a })
  { c with blocks := m }

/-- basic_block::operator-= on the blocks of a CFG. -/
def Cfg.removeEdge (c : Cfg) (a b : Nat) : Cfg :=
  let m := mapUpdate c.blocks a (fun blk => { blk with next := removeAdjacent blk.next b })
  let m := mapUpdate m b (fun blk => { blk with prev := removeAdjacent blk.prev a })
  { c with blocks := m }

/-- Cfg::remove: collect the dead edge pairs touching the block (skipping
self loops), remove them with operator-= in order (all predecessor pairs,
then all successor pairs), then erase the block; none when a get_node call
fails. -/
def Cfg.remove (c : Cfg) (bbId : Nat) : Option Cfg :=
  match mapLookup c.blocks bbId with
  | none => none
  | some bb =>
    let deadPreds := bb.prev.filter (fun id => bbId ≠ id)
    let deadSuccs := bb.next.filter (fun id => bbId ≠ id)
    if deadPreds.all (fun id => (mapLookup c.blocks id).isSome) &&
       deadSuccs.all (fun id => (mapLookup c.blocks id).isSome) then
      let c1 := deadPreds.foldl (fun g p => g.removeEdge p bbId) c
      let c2 := deadSuccs.foldl (fun g s => g.removeEdge bbId s) c1
      some { c2 with blocks := mapErase c2.blocks bbId }
    else none

/-- Cfg::clone: build a fresh CFG from the entry constructor (which already
inserts an empty entry block), copy exit flag and function declaration,
then insert a clone of every block with the no-overwrite map insertion. -/
def Cfg.clone (c : Cfg) : Cfg :=
  let base := Cfg.mk_entry c.entry c.trackPrec
  let base := { base with exit? := c.exit?, funcDecl := c.funcDecl }
  c.blocks.foldl
    (fun acc p => { acc with blocks := mapInsert acc.blocks p.1 p.2.clone })
    base

/-- donot_simplify_visitor over one statement: true exactly for assume,
boolean assume and array load. -/
def doNotSimplifyStmt (s : Stmt) : Bool :=
  s.is_assume || s.is_bool_assume || s.is_arr_read

/-- The visitor run over all statements of a block
(merge_blocks_rec, lines 3212-3214). -/
def doNotSimplify (b : Block) : Bool :=
  b.stmts.any doNotSimplifyStmt

/-- Cfg::merge_blocks_rec, with explicit fuel for the recursion.  The block
is fused into its predecessor when it has exactly one successor and exactly
one predecessor (has_one_child/has_one_parent are both about the CURRENT
block) and the visitor found no guarded statement in it; the parent then
absorbs the statements, the block is removed and the parent is wired to the
child, from which the recursion continues.  Otherwise the recursion visits
every successor.  none models CRAB_ERROR of get_node or fuel exhaustion. -/
def mergeBlocksRec (fuel : Nat) (c : Cfg) (cur : Nat) (visited : List Nat) :
    Option (Cfg × List Nat) :=
  match fuel with
  | 0 => none
  | Nat.succ fuel =>
    if cur ∈ visited then some (c, visited)
    else
      let visited := cur :: visited
      match mapLookup c.blocks cur with
      | none => none
      | some curB =>
        match curB.next, curB.prev with
        | [childId], [parentId] =>
          if (mapLookup c.blocks parentId).isSome &&
             (mapLookup c.blocks childId).isSome then
            if !doNotSimplify curB then
              let m := mapUpdate c.blocks parentId (fun pb => pb.merge_back curB)
              let c := { c with blocks := m }
              match c.remove cur with
              | none => none
              | some c =>
                mergeBlocksRec fuel (c.addEdge parentId childId) childId visited
            else
              [childId].foldlM
                (fun (st : Cfg × List Nat) n => mergeBlocksRec fuel st.1 n st.2)
                (c, visited)
          else none
        | next, _ =>
          next.foldlM
            (fun (st : Cfg × List Nat) n => mergeBlocksRec fuel st.1 n st.2)
            (c, visited)

/-- Cfg::merge_blocks: the fusion pass of simplify(), started at the
entry with an empty visited set. -/
def Cfg.merge_blocks (fuel : Nat) (c : Cfg) : Option Cfg :=
  (mergeBlocksRec fuel c c.entry []).map (fun st => st.1)

/-- Reversed view of a CFG (class cfg_rev): holds the wrapped CFG and the
derived label-to-reversed-block-wrapper map built by the constructor; the
wrappers are non-owning views, so only their labels are recorded. -/
structure CfgRev where
  cfg : Cfg
  revBBs : List (Nat × Nat)
deriving DecidableEq, Repr

/-- The cfg_rev(CFGRef) constructor body: create a reversed wrapper for
every block of the wrapped CFG.  It performs no check at all. -/
def CfgRev.build (c : Cfg) : CfgRev :=
  ⟨c, c.blocks.map (fun p => (p.1, p.2.label))⟩

/-- Construction of a reversed view as a fallible operation: the C++
constructor contains no CRAB_ERROR path, so it always succeeds. -/
def cfgRevNew (c : Cfg) : Except String CfgRev :=
  .ok (CfgRev.build c)

/-- cfg_rev::entry: errors when the wrapped CFG has no exit, else returns
the original exit label. -/
def CfgRev.entry (r : CfgRev) : Except String Nat :=
  if !r.cfg.has_exit then .error "Entry not found!"
  else match r.cfg.exit? with
       | some e => .ok e
       | none => .error "cfg does not have an exit block"

/-- cfg_rev::has_exit: always true. -/
def CfgRev.has_exit (_ : CfgRev) : Bool := true

/-- type_checker_visitor::check_num. -/
def checkNum (v : Var) (msg : String) : Except String Unit :=
  if v.ty ≠ .INT_TYPE ∧ v.ty ≠ .REAL_TYPE then
    .error ("(type checking) " ++ msg)
  else .ok ()

/-- type_checker_visitor::check_int_or_bool. -/
def checkIntOrBool (v : Var) (msg : String) : Except String Unit :=
  if v.ty ≠ .INT_TYPE ∧ v.ty ≠ .BOOL_TYPE then
    .error ("(type checking) " ++ msg)
  else .ok ()

/-- type_checker_visitor::check_int. -/
def checkInt (v : Var) (msg : String) : Except String Unit :=
  if v.ty ≠ .INT_TYPE ∨ v.bitwidth ≤ 1 then
    .error ("(type checking) " ++ msg)
  else .ok ()

/-- type_checker_visitor::check_bool. -/
def checkBool (v : Var) (msg : String) : Except String Unit :=
  if v.ty ≠ .BOOL_TYPE ∨ v.bitwidth ≠ 1 then
    .error ("(type checking) " ++ msg)
  else .ok ()

/-- type_checker_visitor::check_bitwidth_if_int. -/
def checkBitwidthIfInt (v : Var) (msg : String) : Except String Unit :=
  if v.ty = .INT_TYPE ∧ v.bitwidth ≤ 1 then
    .error ("(type checking) " ++ msg)
  else .ok ()

/-- type_checker_visitor::check_bitwidth_if_bool. -/
def checkBitwidthIfBool (v : Var) (msg : String) : Except String Unit :=
  if v.ty = .BOOL_TYPE ∧ v.bitwidth ≠ 1 then
    .error ("(type checking) " ++ msg)
  else .ok ()

/-- type_checker_visitor::visit(int_cast_t): truncation needs an integer
source of width > 1 and a strictly narrower destination; sign and zero
extension need an integer destination of width > 1 and a strictly narrower
source. -/
def visitIntCast (op : CastOp) (src dst : Var) : Except String Unit :=
  match op with
  | .CAST_TRUNC => do
    checkInt src "source operand must be integer"
    checkIntOrBool dst "destination must be integer or bool"
    checkBitwidthIfBool dst "type and bitwidth of destination operand do not match"
    checkBitwidthIfInt dst "type and bitwidth of destination operand do not match"
    if src.bitwidth ≤ dst.bitwidth then
      .error "(type checking) bitwidth of source operand must be greater than destination"
    else .ok ()
  | _ => do
    checkInt dst "destination operand must be integer"
    checkIntOrBool src "source must be integer or bool"
    checkBitwidthIfBool src "type and bitwidth of source operand do not match"
    checkBitwidthIfInt src "type and bitwidth of source operand do not match"
    if dst.bitwidth ≤ src.bitwidth then
      .error "(type checking) bitwidth of destination must be greater than source"
    else .ok ()

/-- type_checker_visitor::visit(bool_select_t), exactly as written in the
source (cfg.hpp lines 3981-3986): the second check_bool call is applied to
s.lhs() again, not to the condition variable. -/
def visitBoolSelect (lhs cond b1 b2 : Var) : Except String Unit := do
  checkBool lhs "lhs must be boolean"
  checkBool lhs "condition must be boolean"
  checkBool b1 "first operand must be boolean"
  checkBool b2 "second operand must be boolean"

/-- type_checker_visitor::visit(bool_bin_op_t). -/
def visitBoolBinOp (lhs op1 op2 : Var) : Except String Unit := do
  checkBool lhs "lhs must be boolean"
  checkBool op1 "first operand must be boolean"
  checkBool op2 "second operand must be boolean"

/-- type_checker_visitor::visit(bool_assign_var_t). -/
def visitBoolAssignVar (lhs rhs : Var) : Except String Unit := do
  checkBool lhs "lhs must be boolean"
  checkBool rhs "rhs must be boolean"

/-- type_checker_visitor::visit(bool_assume_t). -/
def visitBoolAssume (cond : Var) : Except String Unit :=
  checkBool cond "condition must be boolean"

/-- type_checker_visitor::visit(bool_assert_t). -/
def visitBoolAssert (cond : Var) : Except String Unit :=
  checkBool cond "condition must be boolean"

/-- boost::hash_combine on size_t values: seed is xored with the hash of
the value plus the golden-ratio constant plus seed shifted left by 6 and
right by 2, all in 64-bit arithmetic. -/
def hashCombine (seed h : Nat) : Nat :=
  seed ^^^ ((h + 2654435769 + seed * 64 + seed / 4) % (2 ^ 64))

/-- Model of boost::hash_value over strings (external to the repository):
a deterministic combine-fold over the characters. -/
def hashString (s : String) : Nat :=
  s.data.foldl (fun h ch => hashCombine h ch.toNat) 0

/-- cfg_hasher::hash(fdecl_t): hash of the function name combined with the
ordered input types, then the ordered output types. -/
def fdeclHash (d : FunctionDecl) : Nat :=
  let r := hashString d.funcName
  let r := d.inputs.foldl (fun h v => hashCombine h v.ty.code) r
  d.outputs.foldl (fun h v => hashCombine h v.ty.code) r

/-- hash_value(Cfg): a fatal error when the function declaration is
missing, else the signature hash. -/
def Cfg.hash_value (c : Cfg) : Except String Nat :=
  match c.funcDecl with
  | none => .error "cannot hash a cfg because function declaration is missing"
  | some d => .ok (fdeclHash d)

/-- operator==(Cfg, Cfg): hash both sides and compare; the errors of
hash_value propagate. -/
def Cfg.eqOp (a b : Cfg) : Except String Bool := do
  let ha ← a.hash_value
  let hb ← b.hash_value
  pure (ha == hb)

/-- Assignment targets of a statement, written from the words of the spec
("defs for assignment targets"): the variables to which the statement
assigns a value.  Stores through a pointer or into an array cell assign to
memory, not to a variable, so they have no variable target. -/
def specAssignTargets : Stmt → List Var
  | .binary_op lhs _ _ _ => [lhs]
  | .assignment lhs _ => [lhs]
  | .assume_stmt _ => []
  | .unreachable_stmt => []
  | .havoc_stmt lhs => [lhs]
  | .select_stmt lhs _ _ _ => [lhs]
  | .assert_stmt _ => []
  | .int_cast_stmt _ _ dst => [dst]
  | .array_assume_stmt _ _ _ _ _ => []
  | .array_store_stmt _ _ _ _ _ => []
  | .array_load_stmt lhs _ _ _ => [lhs]
  | .array_assign_stmt lhs _ => [lhs]
  | .ptr_load_stmt lhs _ => [lhs]
  | .ptr_store_stmt _ _ => []
  | .ptr_assign_stmt lhs _ _ => [lhs]
  | .ptr_object_stmt lhs _ => [lhs]
  | .ptr_function_stmt lhs _ => [lhs]
  | .ptr_null_stmt lhs => [lhs]
  | .ptr_assume_stmt _ => []
  | .ptr_assert_stmt _ => []
  | .callsite_stmt _ lhs _ => lhs
  | .return_stmt _ => []
  | .bool_binary_op lhs _ _ _ => [lhs]
  | .bool_assign_cst lhs _ => [lhs]
  | .bool_assign_var lhs _ _ => [lhs]
  | .bool_assume_stmt _ _ => []
  | .bool_select_stmt lhs _ _ _ => [lhs]
  | .bool_assert_stmt _ => []

/-- Variables a statement reads, written from the words of the spec ("uses
for everything read"): every variable whose value the statement consumes,
including arrays being read or written through, pointers being
dereferenced, and the variables of index/offset expressions. -/
def specReadVars : Stmt → List Var
  | .binary_op _ _ op1 op2 => op1.variables ++ op2.variables
  | .assignment _ rhs => rhs.variables
  | .assume_stmt cst => cst.variables
  | .unreachable_stmt => []
  | .havoc_stmt _ => []
  | .select_stmt _ cond e1 e2 => cond.variables ++ e1.variables ++ e2.variables
  | .assert_stmt cst => cst.variables
  | .int_cast_stmt _ src _ => [src]
  | .array_assume_stmt arr _ lb ub val =>
      arr :: (lb.variables ++ ub.variables ++ val.variables)
  | .array_store_stmt arr index value _ _ =>
      arr :: (index.variables ++ value.variables)
  | .array_load_stmt _ arr index _ => arr :: index.variables
  | .array_assign_stmt _ rhs => [rhs]
  | .ptr_load_stmt _ rhs => [rhs]
  | .ptr_store_stmt lhs rhs => [lhs, rhs]
  | .ptr_assign_stmt _ rhs offset => rhs :: offset.variables
  | .ptr_object_stmt _ _ => []
  | .ptr_function_stmt _ _ => []
  | .ptr_null_stmt _ => []
  | .ptr_assume_stmt cst => cst.liveVars
  | .ptr_assert_stmt cst => cst.liveVars
  | .callsite_stmt _ _ args => args
  | .return_stmt ret => ret
  | .bool_binary_op _ _ op1 op2 => [op1, op2]
  | .bool_assign_cst _ rhs => rhs.variables
  | .bool_assign_var _ rhs _ => [rhs]
  | .bool_assume_stmt cond _ => [cond]
  | .bool_select_stmt _ cond b1 b2 => [cond, b1, b2]
  | .bool_assert_stmt cond => [cond]

/-- Cfg::set_exit. -/
def Cfg.set_exit (c : Cfg) (e : Nat) : Cfg :=
  { c with exit? := some e }

/-- Cfg::set_func_decl. -/
def Cfg.set_func_decl (c : Cfg) (d : FunctionDecl) : Cfg :=
  { c with funcDecl := some d }

/-- Labels of the blocks of a CFG. -/
def Cfg.labels (c : Cfg) : List Nat :=
  c.blocks.map (fun p => p.1)

/-- Adjacency symmetry between one pair of labels: whenever both are
present, one lists the other as successor exactly when the other lists it
back as predecessor. -/
def symPairB (c : Cfg) (a b : Nat) : Bool :=
  match mapLookup c.blocks a, mapLookup c.blocks b with
  | some ba, some bb => decide (b ∈ ba.next) == decide (a ∈ bb.prev)
  | _, _ => true

/-- The adjacency-symmetry invariant of a CFG as an executable check over
all pairs of block labels. -/
def Cfg.adjacencySymmetric (c : Cfg) : Bool :=
  c.labels.all fun a => c.labels.all fun b => symPairB c a b

/-- Executable check that every adjacency label of every block is the
label of a block of the CFG. -/
def Cfg.closedAdjacency (c : Cfg) : Bool :=
  c.labels.all fun l =>
    match mapLookup c.blocks l with
    | some b =>
        b.prev.all (fun z => (mapLookup c.blocks z).isSome) &&
        b.next.all (fun z => (mapLookup c.blocks z).isSome)
    | none => true

/-- Propositional form of adjacency symmetry. -/
def SymP (c : Cfg) : Prop :=
  ∀ x y bx b2, mapLookup c.blocks x = some bx → mapLookup c.blocks y = some b2 →
    (y ∈ bx.next ↔ x ∈ b2.prev)

/-- Propositional form of adjacency closure. -/
def ClosedP (c : Cfg) : Prop :=
  ∀ x bx, mapLookup c.blocks x = some bx →
    (∀ z ∈ bx.prev, (mapLookup c.blocks z).isSome) ∧
    (∀ z ∈ bx.next, (mapLookup c.blocks z).isSome)

/-- Concrete variables used by the concrete checks below. -/
def xVar : Var := ⟨"x", .INT_TYPE, 32⟩

/-- Concrete 32-bit integer variable y. -/
def yVar : Var := ⟨"y", .INT_TYPE, 32⟩

/-- Concrete pointer variable p. -/
def pVar : Var := ⟨"p", .PTR_TYPE, 32⟩

/-- Concrete pointer variable q. -/
def qVar : Var := ⟨"q", .PTR_TYPE, 32⟩

/-- Concrete 32-bit integer variable n, used inside an offset
expression. -/
def nVar : Var := ⟨"n", .INT_TYPE, 32⟩

/-- The offset expression n + 0: a pointer offset that references a
variable. -/
def offExp : LinExp := ⟨[(1, nVar)], 0⟩

/-- Concrete boolean variables of width 1. -/
def bVar1 : Var := ⟨"b1", .BOOL_TYPE, 1⟩

/-- Second concrete boolean variable. -/
def bVar2 : Var := ⟨"b2", .BOOL_TYPE, 1⟩

/-- Third concrete boolean variable. -/
def bVar3 : Var := ⟨"b3", .BOOL_TYPE, 1⟩

/-- An integer variable used where a boolean condition is expected. -/
def condIntVar : Var := ⟨"c", .INT_TYPE, 32⟩

/-- Concrete 8-bit integer variable, the destination of a truncation. -/
def i8Var : Var := ⟨"d", .INT_TYPE, 8⟩

/-- CFG whose entry block carries one statement: input of the clone
check. -/
def cfgEntryStmt : Cfg :=
  let c := Cfg.mk_entry 0 .NUM
  { c with blocks := mapUpdate c.blocks 0 (fun b => b.havoc xVar) }

/-- Diamond-with-chord CFG: entry 0 with successors 1 and 2, and an edge
from 1 to 2; block 1 carries one havoc statement (no guarded
statements). -/
def cfgDiamond : Cfg :=
  let c := Cfg.mk_entry 0 .NUM
  let c := c.insert 1
  let c := c.insert 2
  let c := c.addEdge 0 1
  let c := c.addEdge 0 2
  let c := c.addEdge 1 2
  { c with blocks := mapUpdate c.blocks 1 (fun b => b.havoc xVar) }

/-- CFG without exit. -/
def cfgNoExit : Cfg := Cfg.mk_entry 0 .NUM

/-- CFG with exit label 0. -/
def cfgWithExit : Cfg := (Cfg.mk_entry 0 .NUM).set_exit 0

/-- An empty block at numeric-only precision. -/
def blockNum : Block := Block.create 7 .NUM

/-- Concrete function declaration f(x) returning y. -/
def fdeclF : FunctionDecl := ⟨"f", [xVar], [yVar]⟩

/-- Concrete function declaration g() with no parameters. -/
def fdeclG : FunctionDecl := ⟨"g", [], []⟩

/-- CFG carrying declaration f. -/
def cfgF1 : Cfg := (Cfg.mk_entry 0 .NUM).set_func_decl fdeclF

/-- CFG carrying declaration f with a different block structure. -/
def cfgF2 : Cfg := ((Cfg.mk_entry 0 .NUM).insert 1).set_func_decl fdeclF

/-- CFG carrying declaration g. -/
def cfgG : Cfg := (Cfg.mk_entry 0 .NUM).set_func_decl fdeclG

/-- Two-block CFG 0 -> 1, a well-formed concrete graph. -/
def cfgTwo : Cfg := ((Cfg.mk_entry 0 .NUM).insert 1).addEdge 0 1

theorem mem_liveAdd {s : List Var} {v w : Var} :
    w ∈ liveAdd s v ↔ w ∈ s ∨ w = v := by
  unfold liveAdd
  split
  · next h => exact ⟨fun hw => Or.inl hw, fun hw => hw.elim id (fun e => e ▸ h)⟩
  · simp

theorem mem_liveAddList {vs : List Var} {s : List Var} {w : Var} :
    w ∈ liveAddList s vs ↔ w ∈ s ∨ w ∈ vs := by
  induction vs generalizing s with
  | nil => simp [liveAddList]
  | cons v vs ih =>
    show w ∈ liveAddList (liveAdd s v) vs ↔ _
    rw [ih, mem_liveAdd]
    simp [or_assoc, or_comm, or_left_comm]

theorem add_uses_defs (l : Live) (vs : List Var) :
    (l.add_uses vs).defs = l.defs := rfl

theorem add_uses_uses (l : Live) (vs : List Var) :
    (l.add_uses vs).uses = liveAddList l.uses vs := rfl

theorem foldl_add_def_eq (vs : List Var) (l : Live) :
    vs.foldl Live.add_def l = { l with defs := liveAddList l.defs vs } := by
  induction vs generalizing l with
  | nil => rfl
  | cons v vs ih =>
    show vs.foldl Live.add_def (l.add_def v) = _
    rw [ih]
    rfl

theorem mapLookup_cons (a : Nat) (b : Block) (t : List (Nat × Block)) (x : Nat) :
    mapLookup ((a, b) :: t) x = if a = x then some b else mapLookup t x := rfl

theorem mapUpdate_cons (pk : Nat) (pv : Block) (t : List (Nat × Block))
    (k : Nat) (f : Block → Block) :
    mapUpdate ((pk, pv) :: t) k f =
      (if pk = k then (pk, f pv) else (pk, pv)) :: mapUpdate t k f := rfl

theorem mapErase_cons (pk : Nat) (pv : Block) (t : List (Nat × Block)) (k : Nat) :
    mapErase ((pk, pv) :: t) k =
      if pk = k then mapErase t k else (pk, pv) :: mapErase t k := by
  by_cases h : pk = k <;> simp [mapErase, List.filter_cons, h]

theorem mapLookup_update (m : List (Nat × Block)) (k : Nat) (f : Block → Block)
    (x : Nat) :
    mapLookup (mapUpdate m k f) x =
      if k = x then (mapLookup m x).map f else mapLookup m x := by
  induction m with
  | nil => simp [mapUpdate, mapLookup]
  | cons p t ih =>
    obtain ⟨pk, pv⟩ := p
    rw [mapUpdate_cons]
    by_cases hpk : pk = k
    · subst hpk
      by_cases hpx : pk = x
      · subst hpx
        simp [mapLookup_cons]
      · simp [mapLookup_cons, hpx, ih]
    · by_cases hpx : pk = x
      · subst hpx
        have hkp : ¬ k = pk := fun h => hpk h.symm
        simp [mapLookup_cons, hpk, hkp]
      · simp [mapLookup_cons, hpk, hpx, ih]

theorem mapLookup_erase (m : List (Nat × Block)) (k x : Nat) :
    mapLookup (mapErase m k) x =
      if k = x then none else mapLookup m x := by
  induction m with
  | nil => simp [mapErase, mapLookup]
  | cons p t ih =>
    obtain ⟨pk, pv⟩ := p
    rw [mapErase_cons]
    by_cases hpk : pk = k
    · subst hpk
      by_cases hpx : pk = x
      · subst hpx
        simp [ih]
      · simp [ih, hpx, mapLookup_cons]
    · by_cases hpx : pk = x
      · subst hpx
        have hkp : ¬ k = pk := fun h => hpk h.symm
        simp [mapLookup_cons, hkp, hpk]
      · simp [mapLookup_cons, hpx, hpk, ih]

theorem mem_insertAdjacent {l : List Nat} {e w : Nat} :
    w ∈ insertAdjacent l e ↔ w ∈ l ∨ w = e := by
  unfold insertAdjacent
  split
  · next h => exact ⟨fun hw => Or.inl hw, fun hw => hw.elim id (fun e2 => e2 ▸ h)⟩
  · simp

theorem mem_removeAdjacent {l : List Nat} {e w : Nat} :
    w ∈ removeAdjacent l e ↔ w ∈ l ∧ w ≠ e := by
  simp [removeAdjacent]

/-- Claim C1 (code bug): Cfg::clone does not produce an identical CFG.  The
clone constructor first builds a fresh CFG whose entry block is empty, and
the subsequent no-overwrite map insertion silently drops the clone of the
original entry block, so for the concrete CFG whose entry block holds one
statement, the cloned entry block holds none. -/
theorem C1_clone_drops_entry_block :
    (mapLookup cfgEntryStmt.blocks 0).map (fun b => b.stmts.length) = some 1 ∧
    (mapLookup (Cfg.clone cfgEntryStmt).blocks 0).map (fun b => b.stmts.length)
      = some 0 := by
  exact ⟨rfl, rfl⟩

/-- Claim C4 (code bug): during the fusion pass, merge_blocks_rec checks
that the CURRENT block has exactly one successor and one predecessor, and
never that the predecessor has exactly one successor.  In cfgDiamond the
entry 0 has TWO successors, yet its successor 1 (one predecessor, one
successor, no guarded statement) is fused into it: after the pass block 1
is gone and its statement has been spliced onto block 0, so the statement
now also executes on the path 0 -> 2 that bypassed block 1. -/
theorem C4_fusion_with_branching_parent :
    ((mapLookup cfgDiamond.blocks 1).map
        (fun b => (b.prev, b.next, doNotSimplify b)) = some ([0], [2], false)) ∧
    ((mapLookup cfgDiamond.blocks 0).map (fun b => b.next) = some [1, 2]) ∧
    ((Cfg.merge_blocks 10 cfgDiamond).map (fun c =>
        ((mapLookup c.blocks 1).isSome,
         (mapLookup c.blocks 0).map (fun b => b.stmts)))
      = some (false, some [Stmt.havoc_stmt xVar])) := by
  exact ⟨rfl, rfl, rfl⟩

/-- Claim C5 counterexample: the cfg_rev constructor of the source performs
no has_exit check, so constructing a reversed view of an exit-less CFG
succeeds instead of failing with an error. -/
theorem C5_counterexample_construction_succeeds :
    cfgNoExit.has_exit = false ∧
    cfgRevNew cfgNoExit = Except.ok (CfgRev.build cfgNoExit) := by
  exact ⟨rfl, rfl⟩

/-- Claim C5 as amended: constructing a reversed view always succeeds, even
when the CFG has no exit; the exit requirement is enforced by
cfg_rev::entry(), which errors exactly when the underlying CFG has no exit
and returns the original exit label otherwise. -/
theorem C5_amended_entry_requires_exit (c : Cfg) :
    cfgRevNew c = Except.ok (CfgRev.build c) ∧
    (c.exit? = none → (CfgRev.build c).entry = Except.error "Entry not found!") ∧
    (∀ e, c.exit? = some e → (CfgRev.build c).entry = Except.ok e) := by
  refine ⟨rfl, ?_, ?_⟩
  · intro h
    simp [CfgRev.entry, CfgRev.build, Cfg.has_exit, h]
  · intro e h
    simp [CfgRev.entry, CfgRev.build, Cfg.has_exit, h]

/-- Witness for C5_amended_entry_requires_exit at concrete CFGs with and
without an exit. -/
theorem C5_amended_entry_requires_exit_witness :
    (CfgRev.build cfgNoExit).entry = Except.error "Entry not found!" ∧
    (CfgRev.build cfgWithExit).entry = Except.ok 0 := by
  exact ⟨(C5_amended_entry_requires_exit cfgNoExit).2.1 rfl,
         (C5_amended_entry_requires_exit cfgWithExit).2.2 0 rfl⟩

/-- Claim C8 (code bug): the bool_select type-check applies check_bool to
s.lhs() twice and never to the condition variable, so a bool_select whose
condition is a 32-bit integer variable is accepted without error even
though every other operand rule holds. -/
theorem C8_bool_select_condition_unchecked :
    condIntVar.ty ≠ VType.BOOL_TYPE ∧
    visitBoolSelect bVar1 condIntVar bVar2 bVar3 = Except.ok () := by
  exact ⟨by decide, rfl⟩

/-- Claim C6: every pointer statement builder on a block whose tracking
precision is below PTR, and every array statement builder on a block whose
tracking precision is below ARR, is a silent no-op: the call returns the
block unchanged (no statement added, live set untouched) and no error is
raised. -/
theorem C6_precision_gated_noop (b : Block) :
    (b.trackPrec.code < TrackedPrecision.PTR.code →
      (∀ l r, b.ptr_store l r = Except.ok b) ∧
      (∀ l r, b.ptr_load l r = Except.ok b) ∧
      (∀ l r off, b.ptr_assign l r off = Except.ok b) ∧
      (∀ l a, b.ptr_new_object l a = Except.ok b) ∧
      (∀ l f, b.ptr_new_func l f = Except.ok b) ∧
      (∀ l, b.ptr_null l = Except.ok b) ∧
      (∀ cst, b.ptr_assume cst = Except.ok b) ∧
      (∀ cst, b.ptr_assertion cst = Except.ok b)) ∧
    (b.trackPrec.code < TrackedPrecision.ARR.code →
      (∀ a es lb ub v, b.array_assume a es lb ub v = Except.ok b) ∧
      (∀ arr i v es sing, b.array_store arr i v es sing = Except.ok b) ∧
      (∀ l arr i es, b.array_load l arr i es = Except.ok b) ∧
      (∀ l r, b.array_assign l r = Except.ok b)) := by
  constructor
  · intro hp
    have hnp : ¬ (TrackedPrecision.PTR.code ≤ b.trackPrec.code) := by omega
    refine ⟨?_, ?_, ?_, ?_, ?_, ?_, ?_, ?_⟩ <;> intros <;>
      simp [Block.ptr_store, Block.ptr_load, Block.ptr_assign,
            Block.ptr_new_object, Block.ptr_new_func, Block.ptr_null,
            Block.ptr_assume, Block.ptr_assertion, hnp, pure, Except.pure]
  · intro ha
    have hna : b.trackPrec ≠ TrackedPrecision.ARR := by
      intro h
      rw [h] at ha
      simp [TrackedPrecision.code] at ha
    refine ⟨?_, ?_, ?_, ?_⟩ <;> intros <;>
      simp [Block.array_assume, Block.array_store, Block.array_load,
            Block.array_assign, hna, pure, Except.pure]

/-- Witness for C6_precision_gated_noop at a concrete numeric-only
block. -/
theorem C6_precision_gated_noop_witness :
    blockNum.ptr_store pVar qVar = Except.ok blockNum ∧
    blockNum.array_load xVar pVar offExp 4 = Except.ok blockNum := by
  exact ⟨((C6_precision_gated_noop blockNum).1 (by decide)).1 pVar qVar,
         ((C6_precision_gated_noop blockNum).2 (by decide)).2.2.1 xVar pVar offExp 4⟩

/-- Claim C7: the type checker accepts an integer cast only when the width
change is strictly monotone in the required direction (strictly narrower
destination for truncation, strictly wider destination for sign/zero
extension), and errors whenever the widths violate that direction. -/
theorem C7_int_cast_strictness (op : CastOp) (src dst : Var) :
    (visitIntCast op src dst = Except.ok () →
      (op = CastOp.CAST_TRUNC → dst.bitwidth < src.bitwidth) ∧
      (op ≠ CastOp.CAST_TRUNC → src.bitwidth < dst.bitwidth)) ∧
    (¬ ((op = CastOp.CAST_TRUNC → dst.bitwidth < src.bitwidth) ∧
        (op ≠ CastOp.CAST_TRUNC → src.bitwidth < dst.bitwidth)) →
      ∃ msg, visitIntCast op src dst = Except.error msg) := by
  cases op <;>
    simp only [visitIntCast, checkInt, checkIntOrBool, checkBitwidthIfBool,
               checkBitwidthIfInt] <;>
    split_ifs <;>
    simp_all [Bind.bind, Except.bind]

/-- Witness for C7_int_cast_strictness: a 32-to-8-bit truncation is
accepted and implies the strict inequality; a 32-to-32-bit truncation is
rejected. -/
theorem C7_int_cast_strictness_witness :
    i8Var.bitwidth < xVar.bitwidth ∧
    (∃ msg, visitIntCast CastOp.CAST_TRUNC xVar xVar = Except.error msg) := by
  exact ⟨((C7_int_cast_strictness CastOp.CAST_TRUNC xVar i8Var).1 rfl).1 rfl,
         (C7_int_cast_strictness CastOp.CAST_TRUNC xVar xVar).2 (by decide)⟩

/-- Claim C9: for two CFGs that both carry a function declaration,
operator== answers true exactly when the signature hashes (function name
combined with the ordered input and output types) are equal, and the
answer is independent of the block structure. -/
theorem C9_eq_iff_signature_hash (a b : Cfg) (da db : FunctionDecl)
    (ha : a.funcDecl = some da) (hb : b.funcDecl = some db) :
    (a.eqOp b = Except.ok true ↔ fdeclHash da = fdeclHash db) ∧
    (∀ bsa bsb,
      Cfg.eqOp { a with blocks := bsa } { b with blocks := bsb } = a.eqOp b) := by
  constructor
  · simp [Cfg.eqOp, Cfg.hash_value, ha, hb, Bind.bind, Except.bind,
          pure, Except.pure, beq_iff_eq]
  · intro bsa bsb
    rfl

/-- Witness for C9_eq_iff_signature_hash: two CFGs with the same signature
but different block structure compare equal. -/
theorem C9_eq_iff_signature_hash_witness :
    cfgF1.eqOp cfgF2 = Except.ok true := by
  exact (C9_eq_iff_signature_hash cfgF1 cfgF2 fdeclF fdeclF rfl rfl).1.mpr rfl

/-- Claim C10: hashing a CFG without a function declaration raises the
fatal missing-declaration error, and operator== on CFGs where either side
lacks a declaration propagates that error instead of answering. -/
theorem C10_missing_decl_errors (a b : Cfg) :
    (a.funcDecl = none →
      a.hash_value =
        Except.error "cannot hash a cfg because function declaration is missing") ∧
    ((a.funcDecl = none ∨ b.funcDecl = none) →
      ∃ msg, a.eqOp b = Except.error msg) := by
  constructor
  · intro h
    simp [Cfg.hash_value, h]
  · intro h
    rcases h with h | h
    · exact ⟨"cannot hash a cfg because function declaration is missing",
        by simp [Cfg.eqOp, Cfg.hash_value, h, Bind.bind, Except.bind]⟩
    · rcases hA : a.funcDecl with _ | da
      · exact ⟨"cannot hash a cfg because function declaration is missing",
          by simp [Cfg.eqOp, Cfg.hash_value, hA, Bind.bind, Except.bind]⟩
      · exact ⟨"cannot hash a cfg because function declaration is missing",
          by simp [Cfg.eqOp, Cfg.hash_value, hA, h, Bind.bind, Except.bind]⟩

/-- Witness for C10_missing_decl_errors at a concrete declaration-less
CFG. -/
theorem C10_missing_decl_errors_witness :
    cfgNoExit.hash_value =
      Except.error "cannot hash a cfg because function declaration is missing" ∧
    (∃ msg, cfgNoExit.eqOp cfgF1 = Except.error msg) := by
  exact ⟨(C10_missing_decl_errors cfgNoExit cfgF1).1 rfl,
         (C10_missing_decl_errors cfgNoExit cfgF1).2 (Or.inl rfl)⟩

theorem add_def_defs (l : Live) (v : Var) :
    (l.add_def v).defs = liveAdd l.defs v := rfl

theorem add_def_uses (l : Live) (v : Var) :
    (l.add_def v).uses = l.uses := rfl

theorem add_use_uses (l : Live) (v : Var) :
    (l.add_use v).uses = liveAdd l.uses v := rfl

theorem add_use_defs (l : Live) (v : Var) :
    (l.add_use v).defs = l.defs := rfl

theorem live_empty_uses : Live.empty.uses = [] := rfl

theorem live_empty_defs : Live.empty.defs = [] := rfl

theorem liveAdd_nil (v : Var) : liveAdd [] v = [v] := by
  simp [liveAdd]

/-- Claim C2 counterexample: the claim fails on the code at two concrete
statements.  For p = *q (ptr_load_stmt) the assignment target p is placed
in the uses partition and not in defs; for p = q + n (ptr_assign_stmt) the
variable n read by the offset expression is absent from the uses
partition. -/
theorem C2_counterexample_live_partition :
    (pVar ∈ specAssignTargets (Stmt.ptr_load_stmt pVar qVar) ∧
     pVar ∉ (stmtLive (Stmt.ptr_load_stmt pVar qVar)).defs) ∧
    (nVar ∈ specReadVars (Stmt.ptr_assign_stmt pVar qVar offExp) ∧
     nVar ∉ (stmtLive (Stmt.ptr_assign_stmt pVar qVar offExp)).uses) := by
  decide

/-- Claim C2 as amended: for every statement constructor except
ptr_load_stmt and ptr_assign_stmt, every assignment target is in the defs
partition and every variable read is in the uses partition; ptr_load_stmt
instead registers its target variable in the uses partition (its defs
partition stays empty), and ptr_assign_stmt registers its lhs in defs and
only its rhs in uses, omitting the variables of its offset expression. -/
theorem C2_live_partition_amended (s : Stmt) :
    (s.is_ptr_read = false →
      ∀ v ∈ specAssignTargets s, v ∈ (stmtLive s).defs) ∧
    (∀ p q, s = Stmt.ptr_load_stmt p q →
      (stmtLive s).defs = [] ∧ p ∈ (stmtLive s).uses) ∧
    (s.is_ptr_assign = false →
      ∀ v ∈ specReadVars s, v ∈ (stmtLive s).uses) ∧
    (∀ p q off, s = Stmt.ptr_assign_stmt p q off →
      (stmtLive s).uses = [q] ∧ (stmtLive s).defs = [p]) := by
  cases s <;>
    refine ⟨?_, ?_, ?_, ?_⟩ <;>
    simp_all [Stmt.is_ptr_read, Stmt.is_ptr_assign, specAssignTargets,
      specReadVars, stmtLive, foldl_add_def_eq, add_uses_defs, add_uses_uses,
      add_def_defs, add_def_uses, add_use_uses, add_use_defs,
      live_empty_uses, live_empty_defs, mem_liveAddList, mem_liveAdd,
      liveAdd_nil] <;>
    tauto

/-- Witness for C2_live_partition_amended at concrete statements of each
kind distinguished by the amendment. -/
theorem C2_live_partition_amended_witness :
    xVar ∈ (stmtLive (Stmt.assignment xVar ⟨[(1, yVar)], 0⟩)).defs ∧
    yVar ∈ (stmtLive (Stmt.assignment xVar ⟨[(1, yVar)], 0⟩)).uses ∧
    pVar ∈ (stmtLive (Stmt.ptr_load_stmt pVar qVar)).uses ∧
    (stmtLive (Stmt.ptr_assign_stmt pVar qVar offExp)).uses = [qVar] := by
  refine ⟨?_, ?_, ?_, ?_⟩
  · exact (C2_live_partition_amended
      (Stmt.assignment xVar ⟨[(1, yVar)], 0⟩)).1 rfl xVar (by decide)
  · exact (C2_live_partition_amended
      (Stmt.assignment xVar ⟨[(1, yVar)], 0⟩)).2.2.1 rfl yVar (by decide)
  · exact ((C2_live_partition_amended
      (Stmt.ptr_load_stmt pVar qVar)).2.1 pVar qVar rfl).2
  · exact ((C2_live_partition_amended
      (Stmt.ptr_assign_stmt pVar qVar offExp)).2.2.2 pVar qVar offExp rfl).1

theorem mapLookup_isSome_iff (m : List (Nat × Block)) (x : Nat) :
    (mapLookup m x).isSome = true ↔ x ∈ m.map (fun p => p.1) := by
  induction m with
  | nil => simp [mapLookup]
  | cons p t ih =>
    obtain ⟨pk, pv⟩ := p
    by_cases h : pk = x
    · subst h
      simp [mapLookup_cons]
    · have hskip : mapLookup ((pk, pv) :: t) x = mapLookup t x := by
        simp [mapLookup_cons, h]
      rw [hskip, ih, List.map_cons, List.mem_cons]
      have hne : ¬ x = pk := fun hh => h hh.symm
      tauto

theorem symPairB_iff (c : Cfg) (a b : Nat) :
    symPairB c a b = true ↔
      (∀ ba bb, mapLookup c.blocks a = some ba → mapLookup c.blocks b = some bb →
        (b ∈ ba.next ↔ a ∈ bb.prev)) := by
  unfold symPairB
  rcases ha : mapLookup c.blocks a with _ | ba <;>
    rcases hb : mapLookup c.blocks b with _ | bb <;>
    simp [beq_iff_eq, decide_eq_decide]

theorem adjacencySymmetric_iff (c : Cfg) :
    c.adjacencySymmetric = true ↔ SymP c := by
  unfold Cfg.adjacencySymmetric SymP
  rw [List.all_eq_true]
  constructor
  · intro h x y bx b2 hx hy
    have hxl : x ∈ c.labels := (mapLookup_isSome_iff c.blocks x).mp (by simp [hx])
    have hyl : y ∈ c.labels := (mapLookup_isSome_iff c.blocks y).mp (by simp [hy])
    have h2 := h x hxl
    rw [List.all_eq_true] at h2
    exact ((symPairB_iff c x y).mp (h2 y hyl)) bx b2 hx hy
  · intro h a _
    rw [List.all_eq_true]
    intro b _
    exact (symPairB_iff c a b).mpr (fun ba bb hba hbb => h a b ba bb hba hbb)

theorem closedAdjacency_iff (c : Cfg) :
    c.closedAdjacency = true ↔ ClosedP c := by
  unfold Cfg.closedAdjacency ClosedP
  rw [List.all_eq_true]
  constructor
  · intro h x bx hx
    have hxl : x ∈ c.labels := (mapLookup_isSome_iff c.blocks x).mp (by simp [hx])
    have hh := h x hxl
    rw [hx] at hh
    rw [Bool.and_eq_true, List.all_eq_true, List.all_eq_true] at hh
    exact ⟨fun z hz => hh.1 z hz, fun z hz => hh.2 z hz⟩
  · intro h l _
    rcases hx : mapLookup c.blocks l with _ | b
    · rfl
    · rw [Bool.and_eq_true, List.all_eq_true, List.all_eq_true]
      exact ⟨fun z hz => (h l b hx).1 z hz, fun z hz => (h l b hx).2 z hz⟩

theorem addEdge_mem (c : Cfg) (a b x y : Nat) (bx : Block)
    (h : mapLookup (c.addEdge a b).blocks x = some bx) :
    ∃ bx0, mapLookup c.blocks x = some bx0 ∧
      (y ∈ bx.next ↔ y ∈ bx0.next ∨ (x = a ∧ y = b)) ∧
      (y ∈ bx.prev ↔ y ∈ bx0.prev ∨ (x = b ∧ y = a)) := by
  unfold Cfg.addEdge at h
  rw [mapLookup_update, mapLookup_update] at h
  rcases hc : mapLookup c.blocks x with _ | bx0 <;>
    by_cases hax : a = x <;> by_cases hbx : b = x <;>
    simp [hax, hbx, hc] at h <;>
    refine ⟨bx0, rfl, ?_, ?_⟩ <;>
    simp [← h, mem_insertAdjacent, hax, hbx] <;>
    tauto

theorem addEdge_isSome (c : Cfg) (a b x : Nat) :
    (mapLookup (c.addEdge a b).blocks x).isSome =
      (mapLookup c.blocks x).isSome := by
  unfold Cfg.addEdge
  rw [mapLookup_update, mapLookup_update]
  by_cases hax : a = x <;> by_cases hbx : b = x <;>
    simp [hax, hbx]

theorem removeEdge_mem (c : Cfg) (a b x y : Nat) (bx : Block)
    (h : mapLookup (c.removeEdge a b).blocks x = some bx) :
    ∃ bx0, mapLookup c.blocks x = some bx0 ∧
      (y ∈ bx.next ↔ y ∈ bx0.next ∧ ¬(x = a ∧ y = b)) ∧
      (y ∈ bx.prev ↔ y ∈ bx0.prev ∧ ¬(x = b ∧ y = a)) := by
  unfold Cfg.removeEdge at h
  rw [mapLookup_update, mapLookup_update] at h
  rcases hc : mapLookup c.blocks x with _ | bx0 <;>
    by_cases hax : a = x <;> by_cases hbx : b = x <;>
    simp [hax, hbx, hc] at h <;>
    refine ⟨bx0, rfl, ?_, ?_⟩ <;>
    simp [← h, mem_removeAdjacent, hax, hbx] <;>
    tauto

theorem removeEdge_isSome (c : Cfg) (a b x : Nat) :
    (mapLookup (c.removeEdge a b).blocks x).isSome =
      (mapLookup c.blocks x).isSome := by
  unfold Cfg.removeEdge
  rw [mapLookup_update, mapLookup_update]
  by_cases hax : a = x <;> by_cases hbx : b = x <;>
    simp [hax, hbx]

theorem removeAdjacent_idem (l : List Nat) (t : Nat) :
    removeAdjacent (removeAdjacent l t) t = removeAdjacent l t := by
  simp [removeAdjacent, List.filter_filter]

theorem lookup_removeEdge_eq (c : Cfg) (a b x : Nat) (hxa : x ≠ a)
    (hxb : x ≠ b) :
    mapLookup (c.removeEdge a b).blocks x = mapLookup c.blocks x := by
  unfold Cfg.removeEdge
  rw [mapLookup_update, mapLookup_update]
  simp [Ne.symm hxa, Ne.symm hxb]

theorem lookup_removeEdge_src (c : Cfg) (a b : Nat) (hab : a ≠ b) :
    mapLookup (c.removeEdge a b).blocks a =
      (mapLookup c.blocks a).map
        (fun blk => { blk with next := removeAdjacent blk.next b }) := by
  unfold Cfg.removeEdge
  rw [mapLookup_update, mapLookup_update]
  simp [Ne.symm hab]

theorem lookup_removeEdge_dst (c : Cfg) (a b : Nat) (hab : a ≠ b) :
    mapLookup (c.removeEdge a b).blocks b =
      (mapLookup c.blocks b).map
        (fun blk => { blk with prev := removeAdjacent blk.prev a }) := by
  unfold Cfg.removeEdge
  rw [mapLookup_update, mapLookup_update]
  simp [hab]

theorem foldRemovePred_lookup (ps : List Nat) (t : Nat) (g : Cfg) (x : Nat)
    (hxt : x ≠ t) (hps : t ∉ ps) :
    mapLookup ((ps.foldl (fun g2 p => g2.removeEdge p t) g)).blocks x =
      if x ∈ ps then
        (mapLookup g.blocks x).map
          (fun blk => { blk with next := removeAdjacent blk.next t })
      else mapLookup g.blocks x := by
  induction ps generalizing g with
  | nil => simp
  | cons p ps ih =>
    have hpt : p ≠ t := fun h => hps (h ▸ List.mem_cons_self p ps)
    have hps2 : t ∉ ps := fun h => hps (List.mem_cons_of_mem p h)
    show mapLookup ((ps.foldl (fun g2 p2 => g2.removeEdge p2 t)
        (g.removeEdge p t))).blocks x = _
    rw [ih (g.removeEdge p t) hps2]
    by_cases hxp : x = p
    · subst hxp
      rw [lookup_removeEdge_src g x t hpt]
      by_cases hmem : x ∈ ps
      · simp only [hmem, if_pos, List.mem_cons, true_or, or_true, Option.map_map]
        rcases mapLookup g.blocks x with _ | blk <;>
          simp [Function.comp, removeAdjacent_idem]
      · simp [hmem, List.mem_cons]
    · rw [lookup_removeEdge_eq g p t x hxp hxt]
      by_cases hmem : x ∈ ps <;> simp [hmem, hxp, List.mem_cons]

theorem foldRemoveSucc_lookup (ss : List Nat) (t : Nat) (g : Cfg) (x : Nat)
    (hxt : x ≠ t) (hss : t ∉ ss) :
    mapLookup ((ss.foldl (fun g2 s => g2.removeEdge t s) g)).blocks x =
      if x ∈ ss then
        (mapLookup g.blocks x).map
          (fun blk => { blk with prev := removeAdjacent blk.prev t })
      else mapLookup g.blocks x := by
  induction ss generalizing g with
  | nil => simp
  | cons s ss ih =>
    have hst : t ≠ s := fun h => hss (h ▸ List.mem_cons_self s ss)
    have hss2 : t ∉ ss := fun h => hss (List.mem_cons_of_mem s h)
    show mapLookup ((ss.foldl (fun g2 s2 => g2.removeEdge t s2)
        (g.removeEdge t s))).blocks x = _
    rw [ih (g.removeEdge t s) hss2]
    by_cases hxs : x = s
    · subst hxs
      rw [lookup_removeEdge_dst g t x hst]
      by_cases hmem : x ∈ ss
      · simp only [hmem, if_pos, List.mem_cons, true_or, or_true, Option.map_map]
        rcases mapLookup g.blocks x with _ | blk <;>
          simp [Function.comp, removeAdjacent_idem]
      · simp [hmem, List.mem_cons]
    · rw [lookup_removeEdge_eq g t s x hxt hxs]
      by_cases hmem : x ∈ ss <;> simp [hmem, hxs, List.mem_cons]

theorem remove_spec (c : Cfg) (l : Nat) (bb : Block)
    (hbb : mapLookup c.blocks l = some bb)
    (hS : SymP c) (hC : ClosedP c) :
    ∃ c2, c.remove l = some c2 ∧
      mapLookup c2.blocks l = none ∧
      (∀ x, x ≠ l →
        (mapLookup c2.blocks x).isSome = (mapLookup c.blocks x).isSome) ∧
      (∀ x bx, mapLookup c2.blocks x = some bx →
        ∃ bx0, x ≠ l ∧ mapLookup c.blocks x = some bx0 ∧
          (∀ y, y ≠ l →
            ((y ∈ bx.next ↔ y ∈ bx0.next) ∧ (y ∈ bx.prev ↔ y ∈ bx0.prev))) ∧
          l ∉ bx.next ∧ l ∉ bx.prev) := by
  have hCl := hC l bb hbb
  have hguard : ((bb.prev.filter (fun id => l ≠ id)).all
        (fun id => (mapLookup c.blocks id).isSome) &&
      (bb.next.filter (fun id => l ≠ id)).all
        (fun id => (mapLookup c.blocks id).isSome)) = true := by
    rw [Bool.and_eq_true, List.all_eq_true, List.all_eq_true]
    constructor <;> intro z hz
    · exact hCl.1 z (List.mem_filter.mp hz).1
    · exact hCl.2 z (List.mem_filter.mp hz).1
  have hnotdp : l ∉ bb.prev.filter (fun id => l ≠ id) := by
    intro h
    have := (List.mem_filter.mp h).2
    simp at this
  have hnotds : l ∉ bb.next.filter (fun id => l ≠ id) := by
    intro h
    have := (List.mem_filter.mp h).2
    simp at this
  unfold Cfg.remove
  rw [hbb]
  simp only [hguard, if_true]
  refine ⟨_, rfl, ?_, ?_, ?_⟩
  · rw [mapLookup_erase]
    simp
  · intro x hx
    rw [mapLookup_erase, if_neg (fun h => hx h.symm)]
    rw [foldRemoveSucc_lookup _ _ _ _ hx hnotds,
        foldRemovePred_lookup _ _ _ _ hx hnotdp]
    rcases mapLookup c.blocks x with _ | bx0 <;> split_ifs <;> simp
  · intro x bx hbx
    have hx : x ≠ l := by
      intro h
      subst h
      rw [mapLookup_erase] at hbx
      simp at hbx
    rw [mapLookup_erase, if_neg (fun h => hx h.symm)] at hbx
    rw [foldRemoveSucc_lookup _ _ _ _ hx hnotds,
        foldRemovePred_lookup _ _ _ _ hx hnotdp] at hbx
    have key : ∃ bx0, mapLookup c.blocks x = some bx0 ∧
        bx.next = (if x ∈ bb.prev.filter (fun id => l ≠ id) then
          removeAdjacent bx0.next l else bx0.next) ∧
        bx.prev = (if x ∈ bb.next.filter (fun id => l ≠ id) then
          removeAdjacent bx0.prev l else bx0.prev) := by
      by_cases hmp : x ∈ bb.prev.filter (fun id => l ≠ id) <;>
        by_cases hms : x ∈ bb.next.filter (fun id => l ≠ id) <;>
        simp only [hmp, hms, if_pos, if_neg, if_true, if_false] at hbx ⊢ <;>
        rcases hcx : mapLookup c.blocks x with _ | bx0 <;>
        rw [hcx] at hbx <;>
        simp at hbx <;>
        exact ⟨bx0, rfl, by simp [← hbx], by simp [← hbx]⟩
    obtain ⟨bx0, hcx, hnx, hpx⟩ := key
    refine ⟨bx0, hx, hcx, ?_, ?_, ?_⟩
    · intro y hy
      constructor
      · rw [hnx]
        split_ifs <;> simp [mem_removeAdjacent, hy]
      · rw [hpx]
        split_ifs <;> simp [mem_removeAdjacent, hy]
    · rw [hnx]
      split_ifs with hmem
      · simp [mem_removeAdjacent]
      · intro habs
        have hxp : x ∈ bb.prev := (hS x l bx0 bb hcx hbb).mp habs
        exact hmem (List.mem_filter.mpr ⟨hxp, by simp [Ne.symm hx]⟩)
    · rw [hpx]
      split_ifs with hmem
      · simp [mem_removeAdjacent]
      · intro habs
        have hxn : x ∈ bb.next := (hS l x bb bx0 hbb hcx).mpr habs
        exact hmem (List.mem_filter.mpr ⟨hxn, by simp [Ne.symm hx]⟩)

set_option maxHeartbeats 1000000 in
/-- Claim C3: in a CFG satisfying the adjacency invariants, B is in A's
successor set iff A is in B's predecessor set, and this symmetry (together
with adjacency closure) is preserved by every edge insertion (operator>>),
edge removal (operator-=) and block removal (Cfg::remove); block removal
moreover always succeeds on a present block. -/
theorem C3_adjacency_symmetry (c : Cfg)
    (hS : c.adjacencySymmetric = true) (hC : c.closedAdjacency = true) :
    (∀ a b, (c.addEdge a b).adjacencySymmetric = true ∧
      ((mapLookup c.blocks a).isSome → (mapLookup c.blocks b).isSome →
        (c.addEdge a b).closedAdjacency = true)) ∧
    (∀ a b, (c.removeEdge a b).adjacencySymmetric = true ∧
      (c.removeEdge a b).closedAdjacency = true) ∧
    (∀ l, (mapLookup c.blocks l).isSome →
      ∃ c2, c.remove l = some c2 ∧ c2.adjacencySymmetric = true ∧
        c2.closedAdjacency = true) := by
  rw [adjacencySymmetric_iff] at hS
  rw [closedAdjacency_iff] at hC
  refine ⟨?_, ?_, ?_⟩
  · intro a b
    constructor
    · rw [adjacencySymmetric_iff]
      intro x y bx b2 hx hy
      obtain ⟨bx0, hx0, hnx, _⟩ := addEdge_mem c a b x y bx hx
      obtain ⟨b20, hy0, _, hpy⟩ := addEdge_mem c a b y x b2 hy
      rw [hnx, hpy]
      have hsym := hS x y bx0 b20 hx0 hy0
      tauto
    · intro ha hb
      rw [closedAdjacency_iff]
      intro x bx hx
      constructor
      · intro z hz
        obtain ⟨bx0, hx0, _, hpz⟩ := addEdge_mem c a b x z bx hx
        rw [addEdge_isSome]
        rcases hpz.mp hz with hz0 | ⟨_, rfl⟩
        · exact (hC x bx0 hx0).1 z hz0
        · exact ha
      · intro z hz
        obtain ⟨bx0, hx0, hnz, _⟩ := addEdge_mem c a b x z bx hx
        rw [addEdge_isSome]
        rcases hnz.mp hz with hz0 | ⟨_, rfl⟩
        · exact (hC x bx0 hx0).2 z hz0
        · exact hb
  · intro a b
    constructor
    · rw [adjacencySymmetric_iff]
      intro x y bx b2 hx hy
      obtain ⟨bx0, hx0, hnx, _⟩ := removeEdge_mem c a b x y bx hx
      obtain ⟨b20, hy0, _, hpy⟩ := removeEdge_mem c a b y x b2 hy
      rw [hnx, hpy]
      have hsym := hS x y bx0 b20 hx0 hy0
      tauto
    · rw [closedAdjacency_iff]
      intro x bx hx
      constructor
      · intro z hz
        obtain ⟨bx0, hx0, _, hpz⟩ := removeEdge_mem c a b x z bx hx
        rw [removeEdge_isSome]
        exact (hC x bx0 hx0).1 z (hpz.mp hz).1
      · intro z hz
        obtain ⟨bx0, hx0, hnz, _⟩ := removeEdge_mem c a b x z bx hx
        rw [removeEdge_isSome]
        exact (hC x bx0 hx0).2 z (hnz.mp hz).1
  · intro l hl
    rcases hbb : mapLookup c.blocks l with _ | bb
    · rw [hbb] at hl
      simp at hl
    obtain ⟨c2, hrem, _, hpres, hchar⟩ := remove_spec c l bb hbb hS hC
    refine ⟨c2, hrem, ?_, ?_⟩
    · rw [adjacencySymmetric_iff]
      intro x y bx b2 hx hy
      obtain ⟨bx0, hxl, hx0, hmemx, _, _⟩ := hchar x bx hx
      obtain ⟨b20, hyl, hy0, hmemy, _, _⟩ := hchar y b2 hy
      rw [(hmemx y hyl).1, (hmemy x hxl).2]
      exact hS x y bx0 b20 hx0 hy0
    · rw [closedAdjacency_iff]
      intro x bx hx
      obtain ⟨bx0, hxl, hx0, hmemx, hlnx, hlpx⟩ := hchar x bx hx
      constructor
      · intro z hz
        have hzl : z ≠ l := fun h => hlpx (h ▸ hz)
        rw [hpres z hzl]
        exact (hC x bx0 hx0).1 z ((hmemx z hzl).2.mp hz)
      · intro z hz
        have hzl : z ≠ l := fun h => hlnx (h ▸ hz)
        rw [hpres z hzl]
        exact (hC x bx0 hx0).2 z ((hmemx z hzl).1.mp hz)

set_option maxHeartbeats 1000000 in
/-- Witness for C3_adjacency_symmetry at the concrete two-block CFG. -/
theorem C3_adjacency_symmetry_witness :
    (cfgTwo.addEdge 1 0).adjacencySymmetric = true ∧
    (cfgTwo.removeEdge 0 1).adjacencySymmetric = true ∧
    (∃ c2, cfgTwo.remove 1 = some c2 ∧ c2.adjacencySymmetric = true ∧
      c2.closedAdjacency = true) := by
  have h := C3_adjacency_symmetry cfgTwo (by decide) (by decide)
  exact ⟨(h.1 1 0).1, (h.2.1 0 1).1, h.2.2 1 (by decide)⟩
